import Mathlib

/-!
Verification of the PINACLE trusted-setup pipeline (`setup.sh`) and the
deployment helper (`deploy.go`).

Strings are modelled as lists of characters (`Str`).  The shell script is
embedded as the list of commands it issues, computed from the command-line
configuration and the observable filesystem (an existence predicate
`Str → Bool`), with the three idempotency gates (`PTAU_FILE`, the compiled
`.r1cs`, `VK_JSON`) evaluated exactly as the script evaluates them.  `set -e`
fail-fast execution is modelled by `runCmds`, which consumes commands until
the first one whose success oracle says it failed.
-/

namespace Pinacle

/-- Strings as character lists. -/
abbrev Str := List Char

/-- Coerce a Lean string literal to the character-list model. -/
def str (s : String) : Str := s.data

/-! ## Path derivation (setup.sh lines 106-123, 172, 193-194) -/

/-- Shell `basename "$p"` (line 107): the part of the path after the last slash.
Validated inputs always end in `.circom`, so the trailing-slash stripping of
the real `basename` never fires on them. -/
def basename (p : Str) : Str :=
  (p.reverse.takeWhile (fun c => c ≠ '/')).reverse

/-- Shell `${VAR%%.*}` (line 108): remove the longest suffix matching `.*`,
i.e. keep everything strictly before the first dot. -/
def stripFromFirstDot (s : Str) : Str :=
  s.takeWhile (fun c => c ≠ '.')

/-- Variable `CIRCOM_NAME` (lines 107-108). -/
def circomName (p : Str) : Str := stripFromFirstDot (basename p)

/-- Variable `POWERS_DIR` (line 111). -/
def powersDir (root : Str) : Str := root ++ str "/powersOfTau"

/-- Variable `BUILD_DIR` (line 112). -/
def buildDir (root name : Str) : Str := root ++ str "/circuits/build/" ++ name

/-- Variable `KEYS_DIR` (line 113). -/
def keysDir (root name : Str) : Str := buildDir root name ++ str "/keys"

/-- Variable `PTAU_FILE` (line 123). -/
def ptauFile (root power : Str) : Str :=
  powersDir root ++ str "/pot" ++ power ++ str "_final.ptau"

/-- The compiled constraint system `${BUILD_DIR}/${CIRCOM_NAME}.r1cs` (line 172). -/
def r1csFile (root name : Str) : Str :=
  buildDir root name ++ str "/" ++ name ++ str ".r1cs"

/-- Variable `FINAL_ZKEY` (line 193). -/
def finalZkey (root name : Str) : Str :=
  keysDir root name ++ str "/" ++ name ++ str "_final.zkey"

/-- Variable `VK_JSON` (line 194). -/
def vkJson (root name : Str) : Str :=
  keysDir root name ++ str "/verification_key.json"

/-- The argument handed to `circom` (line 176): `"${ROOT_DIR}/${CIRCOM_FILE}"`. -/
def compilerArg (root file : Str) : Str := root ++ str "/" ++ file

/-! ## Input validation (setup.sh lines 67-92) -/

/-- Glob check `[[ "$f" == *.circom ]]` (line 78): `*` matches any string,
so this is exactly a suffix check. -/
def hasCircomExt (f : Str) : Bool :=
  f.reverse.take 7 = (str ".circom").reverse

/-- The `--circom` validation (lines 67-81): non-empty, the file exists,
and the name ends in `.circom`. -/
def validCircom (fileExists : Str → Bool) (f : Str) : Bool :=
  !f.isEmpty && fileExists f && hasCircomExt f

/-- The `--power` validation (lines 84-92): `^[0-9]+$`. -/
def isDigitStr (s : Str) : Bool :=
  !s.isEmpty && s.all Char.isDigit

/-- A token usable as a path component: non-empty, no slash, no NUL. -/
def fsSafeToken (s : Str) : Bool :=
  !s.isEmpty && s.all (fun c => c ≠ '/' && c ≠ Char.ofNat 0)

/-! ## Entropy tokens (setup.sh lines 133, 137, 142, 207, 211, 216)

Each contribution receives `-e="$(uuidgen | tr -d '-' | head -c40)"`.
`uuidgen` prints 32 hex digits grouped 8-4-4-4-12 by hyphens plus a trailing
newline; `tr -d '-'` deletes the hyphens, `head -c40` keeps the first 40
bytes, and the command substitution strips trailing newlines. -/

/-- The 8-4-4-4-12 hyphenated rendering `uuidgen` prints, as a function of
its 32 hex digits. -/
def uuidFormat (d : Str) : Str :=
  d.take 8 ++ '-' :: ((d.drop 8).take 4 ++ '-' :: ((d.drop 12).take 4
    ++ '-' :: ((d.drop 16).take 4 ++ '-' :: d.drop 20)))

/-- Pipe step `tr -d '-'`. -/
def trNoHyphen (s : Str) : Str := s.filter (fun c => c ≠ '-')

/-- Pipe step `head -cN`. -/
def headBytes (n : Nat) (s : Str) : Str := s.take n

/-- Substitution `$( ... )` strips trailing newlines. -/
def cmdSubst (s : Str) : Str :=
  (s.reverse.dropWhile (fun c => c = Char.ofNat 10)).reverse

/-- The entropy value passed via `-e=`, as a function of the 32 hex digits
of the fresh UUID generated for that invocation. -/
def entropyToken (d : Str) : Str :=
  cmdSubst (headBytes 40 (trNoHyphen (uuidFormat d ++ [Char.ofNat 10])))

/-- Hexadecimal digit (either case). -/
def isHexChar (c : Char) : Bool :=
  c.isDigit || ('a' ≤ c && c ≤ 'f') || ('A' ≤ c && c ≤ 'F')

/-! ## The command trace model -/

/-- One observable action of the script: an external tool invocation
(`circom`/`snarkjs`), a deletion, or an echoed notice. -/
inductive Cmd where
  | tool (exe : Str) (args : List Str)
  | rm (files : List Str)
  | notice (msg : Str)
deriving DecidableEq

/-- Is this command an external tool invocation? -/
def isToolCmd : Cmd → Bool
  | .tool _ _ => true
  | _ => false

/-- The six fresh UUID digit-strings drawn during one run (lines 133, 137,
142, 207, 211, 216), one per contribution step. -/
structure Entropy where
  u1 : Str
  u2 : Str
  u3 : Str
  u4 : Str
  u5 : Str
  u6 : Str
deriving DecidableEq

/-- File name `pot${POWER_OF_TAU}<tag>`. -/
def potName (power tag : Str) : Str := str "pot" ++ power ++ tag

/-- The hex beacon constant of lines 151 and 225. -/
def beaconHex : Str :=
  str "0102030405060708090a0b0c0d0e0f101112131415161718191a1b1c1d1e1f"

/-- The chain-verification call on the final ptau (line 158). -/
def phase1VerifyFinal (power : Str) : Cmd :=
  .tool (str "snarkjs")
    [str "powersoftau", str "verify", potName power (str "_final.ptau")]

/-- The intermediate files removed at lines 161-162 (relative to `POWERS_DIR`). -/
def phase1Rms (power : Str) : List Str :=
  [potName power (str "_0000.ptau"), potName power (str "_0001.ptau"),
   potName power (str "_0002.ptau"), str "challenge_0003", str "response_0003",
   potName power (str "_0003.ptau"), potName power (str "_beacon.ptau")]

/-- The phase-1 cleanup command (lines 160-162). -/
def phase1RmCmd (power : Str) : Cmd := .rm (phase1Rms power)

/-- The phase-1 powers-of-tau ceremony, lines 126-162, run inside
`POWERS_DIR` with fresh UUIDs `u1 u2 u3`. -/
def phase1Cmds (power u1 u2 u3 : Str) : List Cmd :=
  [.notice (str "Starting new powers-of-tau ceremony for power " ++ power ++ str "."),
   .tool (str "snarkjs")
     [str "powersoftau", str "new", str "bn128", power,
      potName power (str "_0000.ptau"), str "-v"],
   .notice (str "First contribution..."),
   .tool (str "snarkjs")
     [str "powersoftau", str "contribute", potName power (str "_0000.ptau"),
      potName power (str "_0001.ptau"), str "--name=First contribution",
      str "-v", str "-e=" ++ entropyToken u1],
   .notice (str "Second contribution..."),
   .tool (str "snarkjs")
     [str "powersoftau", str "contribute", potName power (str "_0001.ptau"),
      potName power (str "_0002.ptau"), str "--name=Second contribution",
      str "-v", str "-e=" ++ entropyToken u2],
   .notice (str "Third contribution (bellman challenge)..."),
   .tool (str "snarkjs")
     [str "powersoftau", str "export", str "challenge",
      potName power (str "_0002.ptau"), str "challenge_0003"],
   .tool (str "snarkjs")
     [str "powersoftau", str "challenge", str "contribute", str "bn128",
      str "challenge_0003", str "response_0003", str "-e=" ++ entropyToken u3],
   .tool (str "snarkjs")
     [str "powersoftau", str "import", str "response",
      potName power (str "_0002.ptau"), str "response_0003",
      potName power (str "_0003.ptau"), str "-n=Third contribution"],
   .notice (str "Verifying powers-of-tau..."),
   .tool (str "snarkjs")
     [str "powersoftau", str "verify", potName power (str "_0003.ptau")],
   .notice (str "Applying random beacon..."),
   .tool (str "snarkjs")
     [str "powersoftau", str "beacon", potName power (str "_0003.ptau"),
      potName power (str "_beacon.ptau"), beaconHex, str "10",
      str "-n=Final Beacon"],
   .notice (str "Preparing phase 2..."),
   .tool (str "snarkjs")
     [str "powersoftau", str "prepare", str "phase2",
      potName power (str "_beacon.ptau"), potName power (str "_final.ptau"),
      str "-v"],
   .notice (str "Verifying final ptau..."),
   phase1VerifyFinal power,
   .notice (str "Cleaning intermediate ptau files..."),
   phase1RmCmd power]

/-- The compile stage, lines 173-182, run inside `BUILD_DIR`. -/
def compileCmds (root file name : Str) : List Cmd :=
  [.notice (str "Compiling circuit with circom..."),
   .tool (str "circom") [compilerArg root file, str "--r1cs", str "--wasm", str "--sym"],
   .notice (str "Circuit info:"),
   .tool (str "snarkjs") [str "r1cs", str "info", name ++ str ".r1cs"],
   .notice (str "Printing constraints (for inspection / optional debugging)..."),
   .tool (str "snarkjs") [str "r1cs", str "print", name ++ str ".r1cs", name ++ str ".sym"]]

/-- The chain-verification call on the final zkey (line 229). -/
def zkeyVerifyFinal (name ptau : Str) : Cmd :=
  .tool (str "snarkjs")
    [str "zkey", str "verify", str "../" ++ name ++ str ".r1cs", ptau,
     name ++ str "_final.zkey"]

/-- The verification-key export (line 232). -/
def exportVkCmd (name : Str) : Cmd :=
  .tool (str "snarkjs")
    [str "zkey", str "export", str "verificationkey",
     name ++ str "_final.zkey", str "verification_key.json"]

/-- The intermediate files removed at lines 235-236 (relative to `KEYS_DIR`). -/
def phase2Rms (name : Str) : List Str :=
  [name ++ str "_0000.zkey", name ++ str "_0001.zkey", name ++ str "_0002.zkey",
   str "challenge_phase2_0003", str "response_phase2_0003", name ++ str "_0003.zkey"]

/-- The phase-2 cleanup command (lines 234-236). -/
def phase2RmCmd (name : Str) : Cmd := .rm (phase2Rms name)

/-- The phase-2 Groth16 setup, lines 197-236, run inside `KEYS_DIR` with
fresh UUIDs `u4 u5 u6`. -/
def phase2Cmds (name ptau u4 u5 u6 : Str) : List Cmd :=
  [.notice (str "Running Groth16 setup and generating proving/verification keys..."),
   .tool (str "snarkjs")
     [str "groth16", str "setup", str "../" ++ name ++ str ".r1cs", ptau,
      name ++ str "_0000.zkey"],
   .notice (str "First zkey contribution..."),
   .tool (str "snarkjs")
     [str "zkey", str "contribute", name ++ str "_0000.zkey",
      name ++ str "_0001.zkey", str "--name=First Contribution", str "-v",
      str "-e=" ++ entropyToken u4],
   .notice (str "Second zkey contribution..."),
   .tool (str "snarkjs")
     [str "zkey", str "contribute", name ++ str "_0001.zkey",
      name ++ str "_0002.zkey", str "--name=Second Contribution", str "-v",
      str "-e=" ++ entropyToken u5],
   .notice (str "Third zkey (bellman) contribution..."),
   .tool (str "snarkjs")
     [str "zkey", str "export", str "bellman", name ++ str "_0002.zkey",
      str "challenge_phase2_0003"],
   .tool (str "snarkjs")
     [str "zkey", str "bellman", str "contribute", str "bn128",
      str "challenge_phase2_0003", str "response_phase2_0003",
      str "-e=" ++ entropyToken u6],
   .tool (str "snarkjs")
     [str "zkey", str "import", str "bellman", name ++ str "_0002.zkey",
      str "response_phase2_0003", name ++ str "_0003.zkey",
      str "-n=Third Contribution"],
   .notice (str "Verifying latest zkey..."),
   .tool (str "snarkjs")
     [str "zkey", str "verify", str "../" ++ name ++ str ".r1cs", ptau,
      name ++ str "_0003.zkey"],
   .notice (str "Applying random beacon to zkey..."),
   .tool (str "snarkjs")
     [str "zkey", str "beacon", name ++ str "_0003.zkey",
      name ++ str "_final.zkey", beaconHex, str "10",
      str "-n=Final Beacon phase2"],
   .notice (str "Verifying final zkey..."),
   zkeyVerifyFinal name ptau,
   .notice (str "Exporting verification key JSON..."),
   exportVkCmd name,
   .notice (str "Cleaning intermediate zkey files..."),
   phase2RmCmd name]

/-- Reuse notice of line 166. -/
def ptauReuseMsg (root power : Str) : Str :=
  str "Powers-of-tau for power " ++ power ++ str " already exists. Reusing "
    ++ ptauFile root power ++ str "."

/-- Reuse notice of line 186. -/
def compileReuseMsg (root name : Str) : Str :=
  str "Circuit already compiled at " ++ r1csFile root name
    ++ str ". Skipping compile."

/-- Reuse notice of line 240. -/
def vkReuseMsg (root name : Str) : Str :=
  str "Verification key already exists at " ++ vkJson root name
    ++ str ". Skipping Groth16 setup."

/-- Phase-1 with its idempotency gate (lines 125-167): run the ceremony
when `PTAU_FILE` is absent, otherwise only echo the reuse notice. -/
def stage1Segment (fileExists : Str → Bool) (root power : Str) (es : Entropy) :
    List Cmd :=
  if fileExists (ptauFile root power) then
    [.notice (ptauReuseMsg root power)]
  else
    phase1Cmds power es.u1 es.u2 es.u3

/-- Compilation with its idempotency gate (lines 172-187). -/
def stage2Segment (fileExists : Str → Bool) (root file name : Str) : List Cmd :=
  if fileExists (r1csFile root name) then
    [.notice (compileReuseMsg root name)]
  else
    compileCmds root file name

/-- Phase-2 with its idempotency gate (lines 196-241): the gate tests
`VK_JSON`, and the ceremony consumes `PTAU_FILE`. -/
def stage3Segment (fileExists : Str → Bool) (root name power : Str) (es : Entropy) :
    List Cmd :=
  if fileExists (vkJson root name) then
    [.notice (vkReuseMsg root name)]
  else
    phase2Cmds name (ptauFile root power) es.u4 es.u5 es.u6

/-- The whole pipeline after validation: phase-1, compile, phase-2, with all
three gates evaluated against the filesystem as the script finds it. -/
def scriptCmds (fileExists : Str → Bool) (root file power : Str) (es : Entropy) :
    List Cmd :=
  stage1Segment fileExists root power es
    ++ stage2Segment fileExists root file (circomName file)
    ++ stage3Segment fileExists root (circomName file) power es

/-- Fail-fast `set -e` execution: run commands in order against a success oracle,
keeping the trace of commands reached; stop at the first failure with a
failing status (`false` = non-zero exit). -/
def runCmds (ok : Cmd → Bool) : List Cmd → List Cmd × Bool
  | [] => ([], true)
  | c :: rest =>
    if ok c then
      let r := runCmds ok rest
      (c :: r.1, r.2)
    else
      ([c], false)

/-! ## Entropy extraction from the trace -/

/-- The value of an `-e=` argument, when the argument is one. -/
def entropyOfArg (a : Str) : Option Str :=
  if (str "-e=").isPrefixOf a then some (a.drop 3) else none

/-- All `-e=` entropy values carried by tool invocations in a command list,
in order. -/
def entropyValues (L : List Cmd) : List Str :=
  (L.map fun c =>
    match c with
    | .tool _ args => args.filterMap entropyOfArg
    | _ => []).flatten

/-- The `j`-th argument of the `i`-th command, when that command is a tool
invocation. -/
def argOf (L : List Cmd) (i j : Nat) : Option Str :=
  match L.get? i with
  | some (.tool _ args) => args.get? j
  | _ => none

/-! ## deploy.go -/

/-- A 20-byte Ethereum address (`common.Address`), modelled as its bytes. -/
structure Address where
  bytes : List Nat
deriving DecidableEq

/-- Function `derefAddresses` (deploy.go lines 243-251): loop over the input pointer
slice, appending the pointed-to value of every non-nil entry. -/
def derefAddresses (ptrs : List (Option Address)) : List Address :=
  ptrs.foldl
    (fun addrs ptr =>
      match ptr with
      | some a => addrs ++ [a]
      | none => addrs)
    []

/-! ## Helper lemmas -/

/-- Applying `takeWhile` to a list whose first part satisfies the predicate and
whose next element refutes it returns exactly the first part. -/
theorem takeWhile_append_stop {p : Char → Bool} (x : Char) (r : List Char)
    (hx : p x = false) :
    ∀ l : List Char, (∀ c ∈ l, p c = true) → (l ++ x :: r).takeWhile p = l := by
  intro l
  induction l with
  | nil =>
    intro _
    show (x :: r).takeWhile p = []
    exact List.takeWhile_cons_of_neg (by simp [hx])
  | cons c t ih =>
    intro hl
    have hc : p c = true := hl c (List.mem_cons_self _ _)
    show (c :: (t ++ x :: r)).takeWhile p = c :: t
    rw [List.takeWhile_cons_of_pos hc, ih (fun d hd => hl d (List.mem_cons_of_mem _ hd))]

/-- Elements of the circuit name are elements of the path. -/
theorem mem_circomName_mem {c : Char} {f : Str} (h : c ∈ circomName f) : c ∈ f := by
  have h1 : c ∈ basename f := List.Sublist.subset (List.takeWhile_sublist _) h
  have h2 : c ∈ f.reverse.takeWhile (fun c => c ≠ '/') := by
    simpa [basename] using h1
  have h3 : c ∈ f.reverse := List.Sublist.subset (List.takeWhile_sublist _) h2
  simpa using h3

/-- Elements of the circuit name are never slashes. -/
theorem mem_circomName_ne_slash {c : Char} {f : Str} (h : c ∈ circomName f) :
    c ≠ '/' := by
  have h1 : c ∈ basename f := List.Sublist.subset (List.takeWhile_sublist _) h
  have h2 : c ∈ f.reverse.takeWhile (fun c => c ≠ '/') := by
    simpa [basename] using h1
  simpa using List.mem_takeWhile_imp h2

/-- Fail-fast execution characterized: if every command succeeds the whole
list runs with a zero status, otherwise execution covers exactly the
successful prefix plus the first failing command, with non-zero status. -/
theorem runCmds_spec (ok : Cmd → Bool) :
    ∀ L : List Cmd,
      runCmds ok L =
        if L.all ok then (L, true)
        else (L.takeWhile ok ++ (L.dropWhile ok).take 1, false) := by
  intro L
  induction L with
  | nil => rfl
  | cons c rest ih =>
    cases hc : ok c with
    | true =>
      cases hall : rest.all ok with
      | true => simp [runCmds, hc, ih, hall, List.all_cons]
      | false => simp [runCmds, hc, ih, hall, List.all_cons]
    | false => simp [runCmds, hc, List.all_cons]

/-- If a command `r` placed after `v` is reached by fail-fast execution,
then `v` succeeded and was itself reached. -/
theorem runCmds_mem_after (ok : Cmd → Bool) :
    ∀ (L1 L2 : List Cmd) (v r : Cmd),
      r ∈ (runCmds ok (L1 ++ v :: L2)).1 → r ∉ L1 → r ≠ v →
      ok v = true ∧ v ∈ (runCmds ok (L1 ++ v :: L2)).1 := by
  intro L1
  induction L1 with
  | nil =>
    intro L2 v r hr _ hne
    cases hv : ok v with
    | true =>
      refine ⟨rfl, ?_⟩
      have htr : (runCmds ok (v :: L2)).1 = v :: (runCmds ok L2).1 := by
        simp [runCmds, hv]
      show v ∈ (runCmds ok (v :: L2)).1
      rw [htr]
      exact List.mem_cons_self _ _
    | false =>
      exfalso
      have htr : (runCmds ok (v :: L2)).1 = [v] := by simp [runCmds, hv]
      have : r ∈ ([v] : List Cmd) := by
        rw [← htr]
        exact hr
      simp at this
      exact hne this
  | cons c t ih =>
    intro L2 v r hr hnotin hne
    have hrc : r ≠ c := fun h => hnotin (h ▸ List.mem_cons_self _ _)
    cases hc : ok c with
    | true =>
      have htr : (runCmds ok (c :: (t ++ v :: L2))).1
          = c :: (runCmds ok (t ++ v :: L2)).1 := by
        simp [runCmds, hc]
      have hr' : r ∈ c :: (runCmds ok (t ++ v :: L2)).1 := by
        rw [← htr]
        exact hr
      rcases List.mem_cons.mp hr' with h | h
      · exact absurd h hrc
      · have key := ih L2 v r h (fun hm => hnotin (List.mem_cons_of_mem _ hm)) hne
        refine ⟨key.1, ?_⟩
        show v ∈ (runCmds ok (c :: (t ++ v :: L2))).1
        rw [htr]
        exact List.mem_cons_of_mem _ key.2
    | false =>
      exfalso
      have htr : (runCmds ok (c :: (t ++ v :: L2))).1 = [c] := by
        simp [runCmds, hc]
      have : r ∈ ([c] : List Cmd) := by
        rw [← htr]
        exact hr
      simp at this
      exact hrc this

/-- Every `potName` value starts with the letter `p`. -/
theorem potName_head (power x : Str) : (potName power x).head? = some 'p' := rfl

/-- With a fixed power, `potName` is injective in the tag. -/
theorem potName_tag_inj {power a b : Str} (h : potName power a = potName power b) :
    a = b :=
  List.append_cancel_left h

/-- A list that ends in the literal `s` differs from the literal `t` when
`t` does not end in `s`. -/
theorem name_app_ne_lit (name : Str) (s t : String)
    (h : (str t).reverse.take (str s).length ≠ (str s).reverse) :
    name ++ str s ≠ str t := by
  intro he
  apply h
  have h2 := congrArg (fun l : Str => l.reverse.take (str s).length) he
  simp only [List.reverse_append] at h2
  rw [List.take_left' (by simp)] at h2
  exact h2.symm

/-! ## Claim theorems -/

/-- C10: `derefAddresses` returns exactly the dereferenced values of the
non-nil entries in their original order (`filterMap id`); the output is
never longer than the input, and has equal length when no entry is nil. -/
theorem C10_thm (ptrs : List (Option Address)) :
    derefAddresses ptrs = ptrs.filterMap id ∧
    (derefAddresses ptrs).length ≤ ptrs.length ∧
    ((∀ p ∈ ptrs, p ≠ none) → (derefAddresses ptrs).length = ptrs.length) := by
  have key : ∀ (l : List (Option Address)) (acc : List Address),
      l.foldl (fun addrs ptr =>
        match ptr with
        | some a => addrs ++ [a]
        | none => addrs) acc = acc ++ l.filterMap id := by
    intro l
    induction l with
    | nil => intro acc; simp
    | cons p t ih =>
      intro acc
      cases p with
      | some a => simp [List.foldl_cons, ih, List.filterMap_cons]
      | none => simp [List.foldl_cons, ih, List.filterMap_cons]
  have heq : derefAddresses ptrs = ptrs.filterMap id := by
    simpa [derefAddresses] using key ptrs []
  have aux : ∀ l : List (Option Address), (∀ p ∈ l, p ≠ none) →
      (l.filterMap id).length = l.length := by
    intro l
    induction l with
    | nil => intro _; rfl
    | cons p t ih =>
      intro h
      cases p with
      | some a =>
        have := ih (fun q hq => h q (List.mem_cons_of_mem _ hq))
        simp [List.filterMap_cons, this]
      | none => exact absurd rfl (h none (List.mem_cons_self _ _))
  refine ⟨heq, ?_, ?_⟩
  · rw [heq]; exact List.length_filterMap_le _ _
  · intro hall
    rw [heq]
    exact aux ptrs hall

/-- C10 witness: a concrete pointer slice with a nil-free sublist. -/
theorem C10_witness :
    (derefAddresses [some (Address.mk [1]), some (Address.mk [2])]).length = 2 :=
  (C10_thm [some (Address.mk [1]), some (Address.mk [2])]).2.2 (by decide)

/-- C9: the compile step hands `circom` the string `ROOT_DIR ++ "/" ++
CIRCOM_FILE`; for a `--circom` argument that passed validation and is an
absolute path, this differs from the path validation checked. -/
theorem C9_thm (fe : Str → Bool) (root file name : Str)
    (hv : validCircom fe file = true) (habs : file.head? = some '/') :
    argOf (compileCmds root file name) 1 0 = some (compilerArg root file) ∧
    compilerArg root file ≠ file := by
  refine ⟨rfl, ?_⟩
  intro h
  have hl := congrArg List.length h
  have hstep : (compilerArg root file).length = root.length + (1 + file.length) := by
    simp [compilerArg, str]
    omega
  rw [hstep] at hl
  omega

/-- C9 witness: an absolute `--circom` path that validates. -/
theorem C9_witness :
    validCircom (fun p => decide (p = str "/tmp/x.circom")) (str "/tmp/x.circom") = true ∧
    compilerArg (str "/root") (str "/tmp/x.circom") ≠ str "/tmp/x.circom" :=
  ⟨by decide,
   (C9_thm (fun p => decide (p = str "/tmp/x.circom")) (str "/root")
     (str "/tmp/x.circom") (str "x") (by decide) (by decide)).2⟩

/-- C7 counterexample: for the accepted path `circuits/a.b.circom` the
derived name is `a`, not everything before the `.circom` extension (`a.b`),
because `%%.*` truncates at the first dot of the base name. -/
theorem C7_cex :
    circomName (str "circuits/a.b.circom") = str "a" ∧
    circomName (str "circuits/a.b.circom") ≠ str "a.b" := by decide

/-- C7 (amended): for each accepted `--circom` path — with or without
directory components — the derived circuit name is the portion of the
source file's base name strictly before its first dot (every accepted path
has such a decomposition, since its base name ends in `.circom`), and the
downstream artifact paths are derived deterministically from that name. -/
theorem C7_thm (fe : Str → Bool) (root f b rest : Str)
    (hv : validCircom fe f = true)
    (hb : basename f = b ++ '.' :: rest)
    (hb2 : '.' ∉ b) :
    circomName f = b ∧
    r1csFile root (circomName f)
      = buildDir root b ++ str "/" ++ b ++ str ".r1cs" ∧
    finalZkey root (circomName f)
      = keysDir root b ++ str "/" ++ b ++ str "_final.zkey" := by
  have hname : circomName f = b := by
    rw [circomName, hb, stripFromFirstDot]
    have hallb : ∀ c ∈ b, (fun c => decide (c ≠ '.')) c = true := by
      intro c hc
      exact decide_eq_true (fun h' => hb2 (h' ▸ hc))
    exact takeWhile_append_stop '.' rest (by decide) b hallb
  refine ⟨hname, ?_, ?_⟩
  · rw [hname]; rfl
  · rw [hname]; rfl

/-- C7 witness: the bare accepted path `Pinacle.circom` yields the name
`Pinacle`. -/
theorem C7_witness :
    circomName (str "Pinacle.circom") = str "Pinacle" :=
  (C7_thm (fun p => decide (p = str "Pinacle.circom")) (str "/r")
    (str "Pinacle.circom") (str "Pinacle") (str "circom")
    (by decide) (by decide) (by decide)).1

/-- C8 counterexample: the hidden file `.circom` passes validation (it can
exist and its name ends in `.circom`), yet the derived name is empty, hence
not a non-empty filesystem-safe token. -/
theorem C8_cex :
    validCircom (fun p => decide (p = str ".circom")) (str ".circom") = true ∧
    fsSafeToken (circomName (str ".circom")) = false := by decide

/-- C8 (amended): for every validated `--circom` argument whose base name
does not start with a dot (and which, like every real path, contains no NUL
character), the derived circuit name is a non-empty filesystem-safe token. -/
theorem C8_thm (fe : Str → Bool) (f : Str)
    (hv : validCircom fe f = true)
    (hnul : Char.ofNat 0 ∉ f)
    (hdot : (basename f).head? ≠ some '.') :
    fsSafeToken (circomName f) = true := by
  have hext : f.reverse.take 7 = (str ".circom").reverse := by
    have h : hasCircomExt f = true := by
      simp only [validCircom, Bool.and_eq_true] at hv
      exact hv.2
    exact of_decide_eq_true h
  have hbne : basename f ≠ [] := by
    cases hrev : f.reverse with
    | nil =>
      exfalso
      rw [hrev] at hext
      exact absurd hext (by decide)
    | cons c t =>
      have hc : c = 'm' := by
        rw [hrev, List.take_succ_cons,
          show (str ".circom").reverse = 'm' :: str "ocric." from by decide] at hext
        exact (List.cons.injEq _ _ _ _ ▸ hext).1
      subst hc
      have step : ('m' :: t).takeWhile (fun c => decide (c ≠ '/'))
          = 'm' :: t.takeWhile (fun c => decide (c ≠ '/')) :=
        List.takeWhile_cons_of_pos (by decide)
      simp [basename, hrev, step]
  cases hb : basename f with
  | nil => exact absurd hb hbne
  | cons b0 bt =>
    have hb0 : b0 ≠ '.' := by
      rw [hb] at hdot
      simpa using hdot
    have hcn : circomName f = b0 :: bt.takeWhile (fun c => decide (c ≠ '.')) := by
      rw [circomName, stripFromFirstDot, hb]
      exact List.takeWhile_cons_of_pos (decide_eq_true hb0)
    rw [fsSafeToken, hcn]
    simp only [List.isEmpty_cons, Bool.not_false, Bool.true_and, List.all_eq_true]
    intro c hc
    have hc' : c ∈ circomName f := by rw [hcn]; exact hc
    have h1 : c ≠ '/' := mem_circomName_ne_slash hc'
    have h2 : c ≠ Char.ofNat 0 := fun h => hnul (h ▸ mem_circomName_mem hc')
    simp [h1, h2]

/-- C8 witness: a validated ordinary circuit file yields a safe token. -/
theorem C8_witness :
    fsSafeToken (circomName (str "circuits/Pinacle.circom")) = true :=
  C8_thm (fun p => decide (p = str "circuits/Pinacle.circom"))
    (str "circuits/Pinacle.circom") (by decide) (by decide) (by decide)

/-- C5: in both contribution chains every step's input file is the
immediately preceding step's output file, in the fixed order of the script:
phase-1 `0000 → 0001 → 0002`, challenge exported from `0002`, the response
imported onto `0002` producing `0003`, chain verification on `0003`, beacon
consuming `0003`; and identically for the phase-2 zkey chain. -/
theorem C5_thm (power u1 u2 u3 name ptau u4 u5 u6 : Str) :
    (argOf (phase1Cmds power u1 u2 u3) 3 2 = argOf (phase1Cmds power u1 u2 u3) 1 4 ∧
     argOf (phase1Cmds power u1 u2 u3) 5 2 = argOf (phase1Cmds power u1 u2 u3) 3 3 ∧
     argOf (phase1Cmds power u1 u2 u3) 7 3 = argOf (phase1Cmds power u1 u2 u3) 5 3 ∧
     argOf (phase1Cmds power u1 u2 u3) 8 4 = argOf (phase1Cmds power u1 u2 u3) 7 4 ∧
     argOf (phase1Cmds power u1 u2 u3) 9 3 = argOf (phase1Cmds power u1 u2 u3) 5 3 ∧
     argOf (phase1Cmds power u1 u2 u3) 9 4 = argOf (phase1Cmds power u1 u2 u3) 8 5 ∧
     argOf (phase1Cmds power u1 u2 u3) 11 2 = argOf (phase1Cmds power u1 u2 u3) 9 5 ∧
     argOf (phase1Cmds power u1 u2 u3) 13 2 = argOf (phase1Cmds power u1 u2 u3) 9 5) ∧
    (argOf (phase2Cmds name ptau u4 u5 u6) 3 2 = argOf (phase2Cmds name ptau u4 u5 u6) 1 4 ∧
     argOf (phase2Cmds name ptau u4 u5 u6) 5 2 = argOf (phase2Cmds name ptau u4 u5 u6) 3 3 ∧
     argOf (phase2Cmds name ptau u4 u5 u6) 7 3 = argOf (phase2Cmds name ptau u4 u5 u6) 5 3 ∧
     argOf (phase2Cmds name ptau u4 u5 u6) 8 4 = argOf (phase2Cmds name ptau u4 u5 u6) 7 4 ∧
     argOf (phase2Cmds name ptau u4 u5 u6) 9 3 = argOf (phase2Cmds name ptau u4 u5 u6) 5 3 ∧
     argOf (phase2Cmds name ptau u4 u5 u6) 9 4 = argOf (phase2Cmds name ptau u4 u5 u6) 8 5 ∧
     argOf (phase2Cmds name ptau u4 u5 u6) 11 4 = argOf (phase2Cmds name ptau u4 u5 u6) 9 5 ∧
     argOf (phase2Cmds name ptau u4 u5 u6) 13 2 = argOf (phase2Cmds name ptau u4 u5 u6) 9 5) :=
  ⟨⟨rfl, rfl, rfl, rfl, rfl, rfl, rfl, rfl⟩,
   ⟨rfl, rfl, rfl, rfl, rfl, rfl, rfl, rfl⟩⟩

/-- C4: under `set -euo pipefail`, if any command of the pipeline fails,
execution consists of exactly the successful prefix plus the first failing
command — nothing after it runs — and the process exit status is non-zero. -/
theorem C4_thm (fe : Str → Bool) (ok : Cmd → Bool) (root file power : Str)
    (es : Entropy)
    (h : (scriptCmds fe root file power es).all ok = false) :
    (runCmds ok (scriptCmds fe root file power es)).2 = false ∧
    (runCmds ok (scriptCmds fe root file power es)).1
      = (scriptCmds fe root file power es).takeWhile ok
        ++ ((scriptCmds fe root file power es).dropWhile ok).take 1 := by
  rw [runCmds_spec ok (scriptCmds fe root file power es), if_neg (by simp [h])]
  exact ⟨rfl, rfl⟩

/-- C4 witness: a pipeline whose very first command fails. -/
theorem C4_witness :
    (scriptCmds (fun _ => true) (str "/r") (str "c.circom") (str "12")
        ⟨[], [], [], [], [], []⟩).all (fun _ => false) = false ∧
    (runCmds (fun _ => false)
      (scriptCmds (fun _ => true) (str "/r") (str "c.circom") (str "12")
        ⟨[], [], [], [], [], []⟩)).2 = false := by
  have h : (scriptCmds (fun _ => true) (str "/r") (str "c.circom") (str "12")
      ⟨[], [], [], [], [], []⟩).all (fun _ => false) = false := by decide
  exact ⟨h, (C4_thm (fun _ => true) (fun _ => false) (str "/r") (str "c.circom")
    (str "12") ⟨[], [], [], [], [], []⟩ h).1⟩

/-- C2 counterexample: with the phase-2 terminal artifact
`<keysDir>/<name>_final.zkey` present (and nothing else), the stage is not
skipped — it still issues tool invocations — because the code gates on
`verification_key.json` instead. -/
theorem C2_cex :
    (fun p => decide (p = finalZkey (str "/w") (str "Pinacle")))
        (finalZkey (str "/w") (str "Pinacle")) = true ∧
    (stage3Segment (fun p => decide (p = finalZkey (str "/w") (str "Pinacle")))
        (str "/w") (str "Pinacle") (str "18") ⟨[], [], [], [], [], []⟩).any
      isToolCmd = true := by decide

/-- C2 (amended): the phase-2 setup/export stage is skipped exactly when
`<buildDir>/keys/verification_key.json` exists: then the reuse notice is the
only command and no tool is invoked; when it is absent the stage's full
procedure runs. -/
theorem C2_thm (fe : Str → Bool) (root name power : Str) (es : Entropy) :
    ((stage3Segment fe root name power es).any isToolCmd
        = !(fe (vkJson root name))) ∧
    (fe (vkJson root name) = true →
      stage3Segment fe root name power es = [Cmd.notice (vkReuseMsg root name)]) ∧
    (fe (vkJson root name) = false →
      stage3Segment fe root name power es
        = phase2Cmds name (ptauFile root power) es.u4 es.u5 es.u6) := by
  cases h : fe (vkJson root name) with
  | true =>
    refine ⟨?_, fun _ => ?_, fun hf => by simp [h] at hf⟩
    · simp [stage3Segment, h, isToolCmd]
    · simp [stage3Segment, h]
  | false =>
    refine ⟨?_, fun ht => by simp [h] at ht, fun _ => ?_⟩
    · simp [stage3Segment, h, phase2Cmds, isToolCmd]
    · simp [stage3Segment, h]

/-- C2 witness: when `verification_key.json` exists the stage is the reuse
notice alone. -/
theorem C2_witness :
    stage3Segment (fun p => decide (p = vkJson (str "/w") (str "P"))) (str "/w")
        (str "P") (str "18") ⟨[], [], [], [], [], []⟩
      = [Cmd.notice (vkReuseMsg (str "/w") (str "P"))] :=
  (C2_thm (fun p => decide (p = vkJson (str "/w") (str "P"))) (str "/w") (str "P")
    (str "18") ⟨[], [], [], [], [], []⟩).2.1 (by decide)

/-- C6: the phase-1 gate and ceremony form the pipeline's leading segment
and depend only on the ceremony exponent, not the circuit (the segment is
the same for every `--circom` argument); when `pot<N>_final.ptau` exists the
whole ceremony is replaced by the single reuse notice with no tool
invocation, and when it is absent the full ceremony runs. -/
theorem C6_thm (fe : Str → Bool) (root file power : Str) (es : Entropy) :
    ((scriptCmds fe root file power es).take
        (stage1Segment fe root power es).length
      = stage1Segment fe root power es) ∧
    (fe (ptauFile root power) = true →
      stage1Segment fe root power es = [Cmd.notice (ptauReuseMsg root power)] ∧
      (stage1Segment fe root power es).any isToolCmd = false) ∧
    (fe (ptauFile root power) = false →
      stage1Segment fe root power es = phase1Cmds power es.u1 es.u2 es.u3) := by
  refine ⟨?_, fun h => ?_, fun h => ?_⟩
  · rw [scriptCmds, List.append_assoc]
    exact List.take_left _ _
  · constructor <;> simp [stage1Segment, h, isToolCmd]
  · simp [stage1Segment, h]

/-- C6 witness: with the terminal ptau present, phase-1 is the reuse notice
alone. -/
theorem C6_witness :
    stage1Segment (fun _ => true) (str "/r") (str "12") ⟨[], [], [], [], [], []⟩
      = [Cmd.notice (ptauReuseMsg (str "/r") (str "12"))] :=
  ((C6_thm (fun _ => true) (str "/r") (str "c.circom") (str "12")
    ⟨[], [], [], [], [], []⟩).2.1 rfl).1

/-- C3 counterexample: if the verification-key export (line 232) fails
after the final-zkey verification (line 229) succeeded, the phase-2
terminal artifact exists and passed verification yet the intermediates are
not deleted — so deletion is not an "if and only if" of verified terminal
presence. -/
theorem C3_cex :
    (zkeyVerifyFinal (str "Pinacle") (str "/pt") ∈
        (runCmds (fun c => !decide (c = exportVkCmd (str "Pinacle")))
          (phase2Cmds (str "Pinacle") (str "/pt") [] [] [])).1 ∧
      (fun c => !decide (c = exportVkCmd (str "Pinacle")))
          (zkeyVerifyFinal (str "Pinacle") (str "/pt")) = true) ∧
    phase2RmCmd (str "Pinacle") ∉
      (runCmds (fun c => !decide (c = exportVkCmd (str "Pinacle")))
        (phase2Cmds (str "Pinacle") (str "/pt") [] [] [])).1 := by decide

/-- C3 (amended): in both ceremonies the cleanup command runs only if the
stage's terminal-artifact verification command was reached and succeeded; a
verification failure leaves every intermediate intact; when every command
of the stage succeeds the cleanup does run; and the terminal artifact is
never among the deleted files. -/
theorem C3_thm (ok : Cmd → Bool) (power u1 u2 u3 name ptau u4 u5 u6 : Str) :
    (phase1RmCmd power ∈ (runCmds ok (phase1Cmds power u1 u2 u3)).1 →
      ok (phase1VerifyFinal power) = true ∧
      phase1VerifyFinal power ∈ (runCmds ok (phase1Cmds power u1 u2 u3)).1) ∧
    (ok (phase1VerifyFinal power) = false →
      phase1RmCmd power ∉ (runCmds ok (phase1Cmds power u1 u2 u3)).1) ∧
    ((phase1Cmds power u1 u2 u3).all ok = true →
      phase1RmCmd power ∈ (runCmds ok (phase1Cmds power u1 u2 u3)).1) ∧
    potName power (str "_final.ptau") ∉ phase1Rms power ∧
    (phase2RmCmd name ∈ (runCmds ok (phase2Cmds name ptau u4 u5 u6)).1 →
      ok (zkeyVerifyFinal name ptau) = true ∧
      zkeyVerifyFinal name ptau ∈ (runCmds ok (phase2Cmds name ptau u4 u5 u6)).1) ∧
    (ok (zkeyVerifyFinal name ptau) = false →
      phase2RmCmd name ∉ (runCmds ok (phase2Cmds name ptau u4 u5 u6)).1) ∧
    ((phase2Cmds name ptau u4 u5 u6).all ok = true →
      phase2RmCmd name ∈ (runCmds ok (phase2Cmds name ptau u4 u5 u6)).1) ∧
    name ++ str "_final.zkey" ∉ phase2Rms name := by
  have k1 : phase1RmCmd power ∈ (runCmds ok (phase1Cmds power u1 u2 u3)).1 →
      ok (phase1VerifyFinal power) = true ∧
      phase1VerifyFinal power ∈ (runCmds ok (phase1Cmds power u1 u2 u3)).1 := by
    intro hr
    exact runCmds_mem_after ok
      [.notice (str "Starting new powers-of-tau ceremony for power " ++ power ++ str "."),
       .tool (str "snarkjs")
         [str "powersoftau", str "new", str "bn128", power,
          potName power (str "_0000.ptau"), str "-v"],
       .notice (str "First contribution..."),
       .tool (str "snarkjs")
         [str "powersoftau", str "contribute", potName power (str "_0000.ptau"),
          potName power (str "_0001.ptau"), str "--name=First contribution",
          str "-v", str "-e=" ++ entropyToken u1],
       .notice (str "Second contribution..."),
       .tool (str "snarkjs")
         [str "powersoftau", str "contribute", potName power (str "_0001.ptau"),
          potName power (str "_0002.ptau"), str "--name=Second contribution",
          str "-v", str "-e=" ++ entropyToken u2],
       .notice (str "Third contribution (bellman challenge)..."),
       .tool (str "snarkjs")
         [str "powersoftau", str "export", str "challenge",
          potName power (str "_0002.ptau"), str "challenge_0003"],
       .tool (str "snarkjs")
         [str "powersoftau", str "challenge", str "contribute", str "bn128",
          str "challenge_0003", str "response_0003", str "-e=" ++ entropyToken u3],
       .tool (str "snarkjs")
         [str "powersoftau", str "import", str "response",
          potName power (str "_0002.ptau"), str "response_0003",
          potName power (str "_0003.ptau"), str "-n=Third contribution"],
       .notice (str "Verifying powers-of-tau..."),
       .tool (str "snarkjs")
         [str "powersoftau", str "verify", potName power (str "_0003.ptau")],
       .notice (str "Applying random beacon..."),
       .tool (str "snarkjs")
         [str "powersoftau", str "beacon", potName power (str "_0003.ptau"),
          potName power (str "_beacon.ptau"), beaconHex, str "10",
          str "-n=Final Beacon"],
       .notice (str "Preparing phase 2..."),
       .tool (str "snarkjs")
         [str "powersoftau", str "prepare", str "phase2",
          potName power (str "_beacon.ptau"), potName power (str "_final.ptau"),
          str "-v"],
       .notice (str "Verifying final ptau...")]
      [.notice (str "Cleaning intermediate ptau files..."), phase1RmCmd power]
      (phase1VerifyFinal power) (phase1RmCmd power) hr
      (by simp [phase1RmCmd]) (by simp [phase1RmCmd, phase1VerifyFinal])
  have k2 : ok (phase1VerifyFinal power) = false →
      phase1RmCmd power ∉ (runCmds ok (phase1Cmds power u1 u2 u3)).1 :=
    fun hv hmem => absurd (k1 hmem).1 (by simp [hv])
  have k3 : (phase1Cmds power u1 u2 u3).all ok = true →
      phase1RmCmd power ∈ (runCmds ok (phase1Cmds power u1 u2 u3)).1 := by
    intro hall
    rw [runCmds_spec ok (phase1Cmds power u1 u2 u3), if_pos hall]
    show phase1RmCmd power ∈ phase1Cmds power u1 u2 u3
    simp [phase1Cmds]
  have k4 : potName power (str "_final.ptau") ∉ phase1Rms power := by
    intro hmem
    simp only [phase1Rms, List.mem_cons, List.not_mem_nil, or_false] at hmem
    rcases hmem with h | h | h | h | h | h | h
    · exact absurd (potName_tag_inj h) (by decide)
    · exact absurd (potName_tag_inj h) (by decide)
    · exact absurd (potName_tag_inj h) (by decide)
    · have h2 := congrArg List.head? h
      rw [potName_head] at h2
      exact absurd h2 (by decide)
    · have h2 := congrArg List.head? h
      rw [potName_head] at h2
      exact absurd h2 (by decide)
    · exact absurd (potName_tag_inj h) (by decide)
    · exact absurd (potName_tag_inj h) (by decide)
  have k5 : phase2RmCmd name ∈ (runCmds ok (phase2Cmds name ptau u4 u5 u6)).1 →
      ok (zkeyVerifyFinal name ptau) = true ∧
      zkeyVerifyFinal name ptau ∈ (runCmds ok (phase2Cmds name ptau u4 u5 u6)).1 := by
    intro hr
    exact runCmds_mem_after ok
      [.notice (str "Running Groth16 setup and generating proving/verification keys..."),
       .tool (str "snarkjs")
         [str "groth16", str "setup", str "../" ++ name ++ str ".r1cs", ptau,
          name ++ str "_0000.zkey"],
       .notice (str "First zkey contribution..."),
       .tool (str "snarkjs")
         [str "zkey", str "contribute", name ++ str "_0000.zkey",
          name ++ str "_0001.zkey", str "--name=First Contribution", str "-v",
          str "-e=" ++ entropyToken u4],
       .notice (str "Second zkey contribution..."),
       .tool (str "snarkjs")
         [str "zkey", str "contribute", name ++ str "_0001.zkey",
          name ++ str "_0002.zkey", str "--name=Second Contribution", str "-v",
          str "-e=" ++ entropyToken u5],
       .notice (str "Third zkey (bellman) contribution..."),
       .tool (str "snarkjs")
         [str "zkey", str "export", str "bellman", name ++ str "_0002.zkey",
          str "challenge_phase2_0003"],
       .tool (str "snarkjs")
         [str "zkey", str "bellman", str "contribute", str "bn128",
          str "challenge_phase2_0003", str "response_phase2_0003",
          str "-e=" ++ entropyToken u6],
       .tool (str "snarkjs")
         [str "zkey", str "import", str "bellman", name ++ str "_0002.zkey",
          str "response_phase2_0003", name ++ str "_0003.zkey",
          str "-n=Third Contribution"],
       .notice (str "Verifying latest zkey..."),
       .tool (str "snarkjs")
         [str "zkey", str "verify", str "../" ++ name ++ str ".r1cs", ptau,
          name ++ str "_0003.zkey"],
       .notice (str "Applying random beacon to zkey..."),
       .tool (str "snarkjs")
         [str "zkey", str "beacon", name ++ str "_0003.zkey",
          name ++ str "_final.zkey", beaconHex, str "10",
          str "-n=Final Beacon phase2"],
       .notice (str "Verifying final zkey...")]
      [.notice (str "Exporting verification key JSON..."), exportVkCmd name,
       .notice (str "Cleaning intermediate zkey files..."), phase2RmCmd name]
      (zkeyVerifyFinal name ptau) (phase2RmCmd name) hr
      (by simp [phase2RmCmd]) (by simp [phase2RmCmd, zkeyVerifyFinal])
  have k6 : ok (zkeyVerifyFinal name ptau) = false →
      phase2RmCmd name ∉ (runCmds ok (phase2Cmds name ptau u4 u5 u6)).1 :=
    fun hv hmem => absurd (k5 hmem).1 (by simp [hv])
  have k7 : (phase2Cmds name ptau u4 u5 u6).all ok = true →
      phase2RmCmd name ∈ (runCmds ok (phase2Cmds name ptau u4 u5 u6)).1 := by
    intro hall
    rw [runCmds_spec ok (phase2Cmds name ptau u4 u5 u6), if_pos hall]
    show phase2RmCmd name ∈ phase2Cmds name ptau u4 u5 u6
    simp [phase2Cmds]
  have k8 : name ++ str "_final.zkey" ∉ phase2Rms name := by
    intro hmem
    simp only [phase2Rms, List.mem_cons, List.not_mem_nil, or_false] at hmem
    rcases hmem with h | h | h | h | h | h
    · exact absurd (List.append_cancel_left h) (by decide)
    · exact absurd (List.append_cancel_left h) (by decide)
    · exact absurd (List.append_cancel_left h) (by decide)
    · exact name_app_ne_lit name "_final.zkey" "challenge_phase2_0003" (by decide) h
    · exact name_app_ne_lit name "_final.zkey" "response_phase2_0003" (by decide) h
    · exact absurd (List.append_cancel_left h) (by decide)
  exact ⟨k1, k2, k3, k4, k5, k6, k7, k8⟩

/-- C3 witness: when every command succeeds, the phase-1 cleanup runs. -/
theorem C3_witness :
    phase1RmCmd (str "12") ∈
      (runCmds (fun _ => true) (phase1Cmds (str "12") [] [] [])).1 :=
  (C3_thm (fun _ => true) (str "12") [] [] [] (str "P") (str "pt")
    [] [] []).2.2.1 (by decide)

/-! ## Entropy-token lemmas -/

/-- A hex digit is not a hyphen. -/
theorem isHex_ne_hyphen {c : Char} (h : isHexChar c = true) : c ≠ '-' := by
  intro e
  rw [e] at h
  exact absurd h (by decide)

/-- A hex digit is not a newline. -/
theorem isHex_ne_nl {c : Char} (h : isHexChar c = true) : c ≠ Char.ofNat 10 := by
  intro e
  rw [e] at h
  exact absurd h (by decide)

/-- The 8/4/4/4/12 split of a list recomposes to the list. -/
theorem segments_recompose (u : Str) :
    u.take 8 ++ ((u.drop 8).take 4 ++ ((u.drop 12).take 4
      ++ ((u.drop 16).take 4 ++ u.drop 20))) = u := by
  have e20 : u.drop 20 = (u.drop 16).drop 4 := by simp
  rw [e20, List.take_append_drop]
  have e16 : u.drop 16 = (u.drop 12).drop 4 := by simp
  rw [e16, List.take_append_drop]
  have e12 : u.drop 12 = (u.drop 8).drop 4 := by simp
  rw [e12, List.take_append_drop]
  rw [List.take_append_drop]

/-- Deleting hyphens from the hyphenated UUID rendering recovers the hex
digits. -/
theorem trNoHyphen_uuidFormat (u : Str) (h2 : u.all isHexChar = true) :
    trNoHyphen (uuidFormat u) = u := by
  have hall : ∀ c ∈ u, isHexChar c = true := fun c hc => List.all_eq_true.mp h2 c hc
  have hfil : ∀ l : Str, l ⊆ u → List.filter (fun c => decide (c ≠ '-')) l = l := by
    intro l hsub
    rw [List.filter_eq_self]
    intro a ha
    exact decide_eq_true (isHex_ne_hyphen (hall a (hsub ha)))
  have s1 : u.take 8 ⊆ u := List.take_subset _ _
  have s2 : (u.drop 8).take 4 ⊆ u :=
    fun x hx => List.drop_subset _ _ (List.take_subset _ _ hx)
  have s3 : (u.drop 12).take 4 ⊆ u :=
    fun x hx => List.drop_subset _ _ (List.take_subset _ _ hx)
  have s4 : (u.drop 16).take 4 ⊆ u :=
    fun x hx => List.drop_subset _ _ (List.take_subset _ _ hx)
  have s5 : u.drop 20 ⊆ u := List.drop_subset _ _
  rw [uuidFormat, trNoHyphen, List.filter_append,
    List.filter_cons_of_neg (by decide), List.filter_append,
    List.filter_cons_of_neg (by decide), List.filter_append,
    List.filter_cons_of_neg (by decide), List.filter_append,
    List.filter_cons_of_neg (by decide),
    hfil _ s1, hfil _ s2, hfil _ s3, hfil _ s4, hfil _ s5]
  exact segments_recompose u

/-- For a fresh 32-hex-digit UUID, the whole
`uuidgen | tr -d '-' | head -c40` substitution returns exactly those 32 hex
digits: the 40-byte cap never truncates because only 32 digits exist. -/
theorem entropyToken_eq (u : Str) (h1 : u.length = 32)
    (h2 : u.all isHexChar = true) : entropyToken u = u := by
  have step1 : trNoHyphen (uuidFormat u ++ [Char.ofNat 10])
      = u ++ [Char.ofNat 10] := by
    rw [trNoHyphen, List.filter_append]
    exact congrArg₂ (fun a b : Str => a ++ b) (trNoHyphen_uuidFormat u h2) (by decide)
  have step2 : headBytes 40 (u ++ [Char.ofNat 10]) = u ++ [Char.ofNat 10] := by
    rw [headBytes]
    apply List.take_of_length_le
    simp [h1]
  have step3 : cmdSubst (u ++ [Char.ofNat 10]) = u := by
    rw [cmdSubst, List.reverse_append]
    simp only [List.reverse_cons, List.reverse_nil, List.nil_append,
      List.cons_append]
    rw [List.dropWhile_cons_of_pos (by decide)]
    cases hu : u.reverse with
    | nil =>
      exfalso
      have hnil : u = [] := by simpa using congrArg List.reverse hu
      rw [hnil] at h1
      exact absurd h1 (by decide)
    | cons c t =>
      have hc : c ∈ u := by
        have : c ∈ u.reverse := hu ▸ List.mem_cons_self _ _
        simpa using this
      have hcf : decide (c = Char.ofNat 10) = false := by
        simpa using isHex_ne_nl (List.all_eq_true.mp h2 c hc)
      rw [List.dropWhile_cons]
      simp only [hcf, Bool.false_eq_true, if_false]
      rw [← hu, List.reverse_reverse]
  rw [entropyToken, step1, step2, step3]

/-- An argument that does not start with a hyphen carries no entropy. -/
theorem entropyOfArg_head_ne {a : Str} (h : a.head? ≠ some '-') :
    entropyOfArg a = none := by
  cases a with
  | nil => rfl
  | cons c t =>
    have hc : c ≠ '-' := fun e => by subst e; exact h rfl
    have hcond : (str "-e=").isPrefixOf (c :: t) = false := by
      show (('-' : Char) :: str "e=").isPrefixOf (c :: t) = false
      rw [List.isPrefixOf_cons₂]
      simp [Ne.symm hc]
    simp [entropyOfArg, hcond]

/-- Head of an append avoids `-` when both parts do. -/
theorem head_append_ne {a b : Str} (ha : a.head? ≠ some '-')
    (hb : b.head? ≠ some '-') : (a ++ b).head? ≠ some '-' := by
  cases a with
  | nil => simpa using hb
  | cons c t => simpa using ha

/-- The extraction `entropyValues` distributes over list append. -/
theorem entropyValues_append (L M : List Cmd) :
    entropyValues (L ++ M) = entropyValues L ++ entropyValues M := by
  simp [entropyValues]

/-- The phase-1 ceremony carries exactly its three entropy tokens. -/
theorem entropyValues_phase1 (power u1 u2 u3 : Str)
    (hpow : power.head? ≠ some '-') :
    entropyValues (phase1Cmds power u1 u2 u3)
      = [entropyToken u1, entropyToken u2, entropyToken u3] := by
  have hp : entropyOfArg power = none := entropyOfArg_head_ne hpow
  have hpot : ∀ x : Str, entropyOfArg (potName power x) = none := fun x =>
    entropyOfArg_head_ne (by rw [potName_head]; decide)
  have a1 : entropyOfArg (str "powersoftau") = none := rfl
  have a2 : entropyOfArg (str "new") = none := rfl
  have a3 : entropyOfArg (str "bn128") = none := rfl
  have a4 : entropyOfArg (str "-v") = none := rfl
  have a5 : entropyOfArg (str "contribute") = none := rfl
  have a6 : entropyOfArg (str "--name=First contribution") = none := rfl
  have a7 : entropyOfArg (str "--name=Second contribution") = none := rfl
  have a8 : entropyOfArg (str "export") = none := rfl
  have a9 : entropyOfArg (str "challenge") = none := rfl
  have a10 : entropyOfArg (str "challenge_0003") = none := rfl
  have a11 : entropyOfArg (str "response_0003") = none := rfl
  have a12 : entropyOfArg (str "import") = none := rfl
  have a13 : entropyOfArg (str "response") = none := rfl
  have a14 : entropyOfArg (str "-n=Third contribution") = none := rfl
  have a15 : entropyOfArg (str "verify") = none := rfl
  have a16 : entropyOfArg (str "beacon") = none := rfl
  have a17 : entropyOfArg beaconHex = none := rfl
  have a18 : entropyOfArg (str "10") = none := rfl
  have a19 : entropyOfArg (str "-n=Final Beacon") = none := rfl
  have a20 : entropyOfArg (str "prepare") = none := rfl
  have a21 : entropyOfArg (str "phase2") = none := rfl
  have aE : ∀ t : Str, entropyOfArg (str "-e=" ++ t) = some t := by
    intro t
    simp [entropyOfArg, str, List.isPrefixOf]
  simp [phase1Cmds, phase1VerifyFinal, phase1RmCmd, entropyValues,
    List.filterMap_cons, hp, hpot, a1, a2, a3, a4, a5, a6, a7, a8, a9, a10,
    a11, a12, a13, a14, a15, a16, a17, a18, a19, a20, a21, aE]

/-- The compile stage carries no entropy token. -/
theorem entropyValues_compile (root file name : Str)
    (hroot : root.head? = some '/') (hname : name.head? ≠ some '-') :
    entropyValues (compileCmds root file name) = [] := by
  have h1 : entropyOfArg (compilerArg root file) = none := by
    apply entropyOfArg_head_ne
    have hca : (compilerArg root file).head? = some '/' := by
      rw [compilerArg]
      simp [List.head?_append, hroot]
    rw [hca]
    decide
  have h2 : entropyOfArg (str "--r1cs") = none := rfl
  have h3 : entropyOfArg (str "--wasm") = none := rfl
  have h4 : entropyOfArg (str "--sym") = none := rfl
  have h5 : entropyOfArg (str "r1cs") = none := rfl
  have h6 : entropyOfArg (str "info") = none := rfl
  have h7 : entropyOfArg (name ++ str ".r1cs") = none :=
    entropyOfArg_head_ne (head_append_ne hname (by decide))
  have h8 : entropyOfArg (str "print") = none := rfl
  have h9 : entropyOfArg (name ++ str ".sym") = none :=
    entropyOfArg_head_ne (head_append_ne hname (by decide))
  simp [compileCmds, entropyValues, List.filterMap_cons,
    h1, h2, h3, h4, h5, h6, h7, h8, h9]

/-- The phase-2 ceremony carries exactly its three entropy tokens. -/
theorem entropyValues_phase2 (name ptau u4 u5 u6 : Str)
    (hname : name.head? ≠ some '-') (hptau : ptau.head? ≠ some '-') :
    entropyValues (phase2Cmds name ptau u4 u5 u6)
      = [entropyToken u4, entropyToken u5, entropyToken u6] := by
  have hp : entropyOfArg ptau = none := entropyOfArg_head_ne hptau
  have hn0 : entropyOfArg (name ++ str "_0000.zkey") = none :=
    entropyOfArg_head_ne (head_append_ne hname (by decide))
  have hn1 : entropyOfArg (name ++ str "_0001.zkey") = none :=
    entropyOfArg_head_ne (head_append_ne hname (by decide))
  have hn2 : entropyOfArg (name ++ str "_0002.zkey") = none :=
    entropyOfArg_head_ne (head_append_ne hname (by decide))
  have hn3 : entropyOfArg (name ++ str "_0003.zkey") = none :=
    entropyOfArg_head_ne (head_append_ne hname (by decide))
  have hnf : entropyOfArg (name ++ str "_final.zkey") = none :=
    entropyOfArg_head_ne (head_append_ne hname (by decide))
  have hr1 : entropyOfArg (str "../" ++ (name ++ str ".r1cs")) = none := by
    simp [entropyOfArg, str, List.isPrefixOf]
  have b1 : entropyOfArg (str "groth16") = none := rfl
  have b2 : entropyOfArg (str "setup") = none := rfl
  have b3 : entropyOfArg (str "zkey") = none := rfl
  have b4 : entropyOfArg (str "contribute") = none := rfl
  have b5 : entropyOfArg (str "--name=First Contribution") = none := rfl
  have b6 : entropyOfArg (str "--name=Second Contribution") = none := rfl
  have b7 : entropyOfArg (str "-v") = none := rfl
  have b8 : entropyOfArg (str "export") = none := rfl
  have b9 : entropyOfArg (str "bellman") = none := rfl
  have b10 : entropyOfArg (str "challenge_phase2_0003") = none := rfl
  have b11 : entropyOfArg (str "response_phase2_0003") = none := rfl
  have b12 : entropyOfArg (str "import") = none := rfl
  have b13 : entropyOfArg (str "-n=Third Contribution") = none := rfl
  have b14 : entropyOfArg (str "verify") = none := rfl
  have b15 : entropyOfArg (str "beacon") = none := rfl
  have b16 : entropyOfArg beaconHex = none := rfl
  have b17 : entropyOfArg (str "10") = none := rfl
  have b18 : entropyOfArg (str "-n=Final Beacon phase2") = none := rfl
  have b19 : entropyOfArg (str "verificationkey") = none := rfl
  have b20 : entropyOfArg (str "verification_key.json") = none := rfl
  have b21 : entropyOfArg (str "bn128") = none := rfl
  have aE : ∀ t : Str, entropyOfArg (str "-e=" ++ t) = some t := by
    intro t
    simp [entropyOfArg, str, List.isPrefixOf]
  simp [phase2Cmds, zkeyVerifyFinal, exportVkCmd, phase2RmCmd, entropyValues,
    List.filterMap_cons, hp, hn0, hn1, hn2, hn3, hnf, hr1, b1, b2, b3, b4, b5,
    b6, b7, b8, b9, b10, b11, b12, b13, b14, b15, b16, b17, b18, b19, b20, b21, aE]

/-- C1 counterexample: with fresh UUIDs (here all-zero digits) the entropy
token handed to every phase-1 contribution step has exactly 32 hex
characters — fewer than the claimed minimum of 40. -/
theorem C1_cex :
    (entropyToken (str "00000000000000000000000000000000")).length = 32 ∧
    ¬ 40 ≤ (entropyToken (str "00000000000000000000000000000000")).length ∧
    entropyValues (phase1Cmds (str "18")
        (str "00000000000000000000000000000000")
        (str "00000000000000000000000000000000")
        (str "00000000000000000000000000000000"))
      = [entropyToken (str "00000000000000000000000000000000"),
         entropyToken (str "00000000000000000000000000000000"),
         entropyToken (str "00000000000000000000000000000000")] := by decide

/-- C1 (amended): every randomness-contribution step in both ceremonies is
invoked with a per-run entropy token that is hex-encoded and exactly 32 hex
characters (128 bits) long — the hyphen-stripped output of one `uuidgen`,
whose 40-byte cap never binds. -/
theorem C1_thm (fe : Str → Bool) (root file power : Str) (es : Entropy)
    (hroot : root.head? = some '/')
    (hname : (circomName file).head? ≠ some '-')
    (hpow : power.head? ≠ some '-')
    (hu : ∀ u ∈ [es.u1, es.u2, es.u3, es.u4, es.u5, es.u6],
        u.length = 32 ∧ u.all isHexChar = true) :
    ∀ t ∈ entropyValues (scriptCmds fe root file power es),
      t.length = 32 ∧ t.all isHexChar = true := by
  have hptau : (ptauFile root power).head? ≠ some '-' := by
    rw [ptauFile, powersDir]
    simp [List.head?_append, hroot]
  intro t ht
  rw [scriptCmds, entropyValues_append, entropyValues_append] at ht
  simp only [List.mem_append] at ht
  have tok : ∀ u, u ∈ [es.u1, es.u2, es.u3, es.u4, es.u5, es.u6] →
      t = entropyToken u → t.length = 32 ∧ t.all isHexChar = true := by
    intro u hm he
    have h := hu u hm
    rw [he, entropyToken_eq u h.1 h.2]
    exact h
  rcases ht with (h | h) | h
  · cases h1 : fe (ptauFile root power) with
    | true =>
      rw [stage1Segment, if_pos h1] at h
      simp [entropyValues] at h
    | false =>
      rw [stage1Segment, if_neg (by simp [h1]),
        entropyValues_phase1 power es.u1 es.u2 es.u3 hpow] at h
      simp only [List.mem_cons, List.not_mem_nil, or_false] at h
      rcases h with h | h | h
      · exact tok es.u1 (by simp) h
      · exact tok es.u2 (by simp) h
      · exact tok es.u3 (by simp) h
  · cases h2 : fe (r1csFile root (circomName file)) with
    | true =>
      rw [stage2Segment, if_pos h2] at h
      simp [entropyValues] at h
    | false =>
      rw [stage2Segment, if_neg (by simp [h2]),
        entropyValues_compile root file (circomName file) hroot hname] at h
      simp at h
  · cases h3 : fe (vkJson root (circomName file)) with
    | true =>
      rw [stage3Segment, if_pos h3] at h
      simp [entropyValues] at h
    | false =>
      rw [stage3Segment, if_neg (by simp [h3]),
        entropyValues_phase2 (circomName file) (ptauFile root power)
          es.u4 es.u5 es.u6 hname hptau] at h
      simp only [List.mem_cons, List.not_mem_nil, or_false] at h
      rcases h with h | h | h
      · exact tok es.u4 (by simp) h
      · exact tok es.u5 (by simp) h
      · exact tok es.u6 (by simp) h

/-- C1 witness: a full run with concrete fresh UUIDs produces 32-hex-char
tokens. -/
theorem C1_witness :
    (entropyToken (str "0123456789abcdef0123456789abcdef")).length = 32 ∧
    (entropyToken (str "0123456789abcdef0123456789abcdef")).all isHexChar
      = true :=
  C1_thm (fun _ => false) (str "/r") (str "c.circom") (str "18")
    ⟨str "0123456789abcdef0123456789abcdef", str "0123456789abcdef0123456789abcdef",
     str "0123456789abcdef0123456789abcdef", str "0123456789abcdef0123456789abcdef",
     str "0123456789abcdef0123456789abcdef", str "0123456789abcdef0123456789abcdef"⟩
    (by decide) (by decide) (by decide) (by decide)
    (entropyToken (str "0123456789abcdef0123456789abcdef")) (by decide)

end Pinacle
